import Mathlib

/-!
# Verification of the karaoke live-pitch recording screen

Shallow embedding of `src/app/index.tsx`: the loudness normalizer
(`normalizePitch`), the rolling sample window (`updatePitchData`), the
status-driven sampling callback (`onRecordingStatusUpdate`), the session
controller lifecycle (`startRecording` / `stopRecording` with its timer
bookkeeping), the elapsed-time formatter (`formatTime`), and a
millisecond-granularity timer-driven execution model for the temporal
properties. JavaScript numbers are idealized as real numbers (`ℝ`),
arrays as Lean lists, and `undefined`-able fields as `Option`.
-/

/-! ## Configuration constants (src/app/index.tsx lines 8-10) -/

def RECORDING_TIME_LIMIT : ℕ := 60000

def REFRESH_INTERVAL : ℕ := 100

def MAX_DATA_POINTS : ℕ := 600

/-! ## Loudness normalizer (src/app/index.tsx, `normalizePitch`)

`Math.max` / `Math.min` become `max` / `min` on `ℝ`; `Math.pow x 0.5`
becomes real exponentiation `x ^ (0.5 : ℝ)` (`Real.rpow`). -/

noncomputable def normalizePitch (metering : ℝ) : ℝ :=
  let minDb : ℝ := -60
  let maxDb : ℝ := -10
  let clampedMetering := max minDb (min maxDb metering)
  let normalizedValue := ((clampedMetering - minDb) / (maxDb - minDb)) * 100
  let normalizedValue := (normalizedValue / 100) ^ (0.5 : ℝ) * 100
  max 0 (min 100 normalizedValue)

/-- The reference pipeline exactly as the specification words it:
clamp to [-60, -10], rescale linearly to [0, 100], apply the square-root
perceptual curve, clamp the result to [0, 100]. -/
noncomputable def normalizeSpecPipeline (db : ℝ) : ℝ :=
  let clamped := max (-60) (min (-10) db)
  let linear := (clamped - (-60)) / ((-10) - (-60)) * 100
  let scaled := (linear / 100) ^ (0.5 : ℝ) * 100
  max 0 (min 100 scaled)

/-! ## Rolling sample window (src/app/index.tsx, `updatePitchData`)

`[...currentData, newPitch]` is list append; `Array.prototype.slice(-n)`
keeps the last `n` elements, i.e. drops `length - n` from the front. -/

def updatePitchData (currentData : List ℝ) (newPitch : ℝ) : List ℝ :=
  let updatedData := currentData ++ [newPitch]
  if updatedData.length > MAX_DATA_POINTS then
    updatedData.drop (updatedData.length - MAX_DATA_POINTS)
  else
    updatedData

/-! ## Recording status and the sampling callback
(src/app/index.tsx, `onRecordingStatusUpdate`)

`status.metering` may be `undefined` or otherwise non-numeric; the
`typeof metering === 'number'` guard is modelled by an `Option ℝ` field
(`some` = a numeric reading, `none` = missing or non-numeric). -/

structure RecordingStatus where
  isRecording : Bool
  metering : Option ℝ

/-- The two pieces of component state the sampling callback writes:
the latest normalized value (`pitch`) and the window (`pitchData`). -/
structure PitchState where
  pitch : Option ℝ
  pitchData : List ℝ

noncomputable def onRecordingStatusUpdate (status : RecordingStatus)
    (s : PitchState) : PitchState :=
  if status.isRecording then
    match status.metering with
    | some m =>
        let normalizedPitch := normalizePitch m
        { pitch := some normalizedPitch,
          pitchData := updatePitchData s.pitchData normalizedPitch }
    | none => s
  else s

/-! ## Elapsed-time formatter (src/app/index.tsx, `formatTime`)

For a non-negative integer millisecond count, `Math.floor(ms / 1000)` is
natural-number division and `%` is `Nat.mod`; `padStart(2, '0')`
prepends `'0'` until the length is at least 2. -/

def padStart (s : String) (targetLen : ℕ) (c : Char) : String :=
  String.mk (List.replicate (targetLen - s.length) c) ++ s

def formatTime (ms : ℕ) : String :=
  let seconds := ms / 1000
  let minutes := seconds / 60
  let remainingSeconds := seconds % 60
  padStart (toString minutes) 2 '0' ++ ":" ++ padStart (toString remainingSeconds) 2 '0'

/-- The formatter exactly as the claim words it: `pad2` of total minutes,
a colon, `pad2` of the remaining seconds, with no upper cap. -/
def formatTimeSpec (ms : ℕ) : String :=
  padStart (toString (ms / 1000 / 60)) 2 '0' ++ ":" ++ padStart (toString (ms / 1000 % 60)) 2 '0'

/-! ## Session controller state (src/app/index.tsx, `App` component state)

`useState`/`useRef` cells become record fields; timer handles are
abstract numeric ids. `timerRef` holds the ad hoc object
`{ timeout, interval }` built at the end of `startRecording`. -/

structure TimerPair where
  timeout : ℕ
  interval : ℕ

structure AppState where
  recording : Option ℕ
  pitch : Option ℝ
  pitchData : List ℝ
  isRecording : Bool
  elapsedTime : ℕ
  intervalRef : Option ℕ
  timerRef : Option TimerPair

/-- The component's initial state: every `useState` initializer and
both refs start empty/false/zero. -/
def initialState : AppState :=
  { recording := none, pitch := none, pitchData := [],
    isRecording := false, elapsedTime := 0,
    intervalRef := none, timerRef := none }

/-- Externally observable side effects of `stopRecording`, in the order
the source performs them. -/
inductive Effect where
  | clearInterval (id : ℕ)
  | clearTimeout (id : ℕ)
  | stopAndUnload (handle : ℕ)
  | logStopError
  deriving DecidableEq, Repr

/-- `stopRecording` (src/app/index.tsx lines 67-88): clear the sampling
interval if set, clear both members of the timer pair if set, try to
stop-and-unload the capture handle if one is held (a failure is caught
and logged, never propagated), then clear `recording` and
`isRecording`. `unloadFails` says whether `stopAndUnloadAsync` throws. -/
def stopRecording (s : AppState) (unloadFails : Bool) : AppState × List Effect :=
  let step₁ : AppState × List Effect :=
    match s.intervalRef with
    | some id => ({ s with intervalRef := none }, [Effect.clearInterval id])
    | none => (s, [])
  let s₁ := step₁.1
  let step₂ : AppState × List Effect :=
    match s₁.timerRef with
    | some tp => ({ s₁ with timerRef := none },
                  [Effect.clearTimeout tp.timeout, Effect.clearInterval tp.interval])
    | none => (s₁, [])
  let s₂ := step₂.1
  let effs₃ : List Effect :=
    match s₂.recording with
    | some h => Effect.stopAndUnload h :: (if unloadFails then [Effect.logStopError] else [])
    | none => []
  ({ s₂ with recording := none, isRecording := false },
   step₁.2 ++ step₂.2 ++ effs₃)

/-- The success path of `startRecording` (src/app/index.tsx lines 27-62):
store the fresh capture handle, set `isRecording`, reset the window and
the elapsed time, store the sampling-interval id in `intervalRef`, and
store the deadline timeout id and elapsed-interval id as the pair in
`timerRef`. (`pitch` is not reset by the source.) -/
def startRecording (s : AppState) (handle samplingId timeoutId elapsedId : ℕ) : AppState :=
  { s with recording := some handle,
           isRecording := true,
           pitchData := [],
           elapsedTime := 0,
           intervalRef := some samplingId,
           timerRef := some ⟨timeoutId, elapsedId⟩ }

/-- The screen-teardown cleanup (src/app/index.tsx lines 22-26) just
invokes `stopRecording`. -/
def teardownCleanup (s : AppState) (unloadFails : Bool) : AppState × List Effect :=
  stopRecording s unloadFails

/-- Lift the sampling callback to the full component state. -/
noncomputable def appOnStatus (status : RecordingStatus) (s : AppState) : AppState :=
  let p := onRecordingStatusUpdate status ⟨s.pitch, s.pitchData⟩
  { s with pitch := p.pitch, pitchData := p.pitchData }

/-! ## Timer-driven execution model

One logical event loop at millisecond granularity, time measured from
session start. The three timers created by `startRecording`, in
creation order: the sampling interval (period `REFRESH_INTERVAL`),
the deadline timeout (due at `RECORDING_TIME_LIMIT`), and the
elapsed-time interval (period 1000, which sets
`elapsedTime := Date.now() - startTime`, idealized as the exact
current offset `t`). A timer fires only while its handle is still
stored; same-deadline timers fire in creation order. -/

noncomputable def samplingStep (statusAt : ℕ → RecordingStatus) (s : AppState) (t : ℕ) :
    AppState :=
  if s.intervalRef.isSome ∧ t % REFRESH_INTERVAL = 0 then appOnStatus (statusAt t) s else s

def deadlineStep (unloadFails : Bool) (s : AppState) (t : ℕ) : AppState :=
  if s.timerRef.isSome ∧ t = RECORDING_TIME_LIMIT then (stopRecording s unloadFails).1 else s

def elapsedStep (s : AppState) (t : ℕ) : AppState :=
  if s.timerRef.isSome ∧ t % 1000 = 0 then { s with elapsedTime := t } else s

noncomputable def fireAt (statusAt : ℕ → RecordingStatus) (unloadFails : Bool)
    (s : AppState) (t : ℕ) : AppState :=
  elapsedStep (deadlineStep unloadFails (samplingStep statusAt s t) t) t

/-- Run the event loop from session start (time 0) through time `t`,
with no manual stop in between. -/
noncomputable def runTo (statusAt : ℕ → RecordingStatus) (unloadFails : Bool)
    (s : AppState) : ℕ → AppState
  | 0 => s
  | t + 1 => fireAt statusAt unloadFails (runTo statusAt unloadFails s t) (t + 1)

/-- Folding the sampling callback over a list of status ticks. -/
noncomputable def processTicks (ticks : List RecordingStatus) (s : PitchState) : PitchState :=
  ticks.foldl (fun s st => onRecordingStatusUpdate st s) s

/-! ## Helper lemmas -/

lemma rpow_half_eq_sqrt (x : ℝ) : x ^ (0.5 : ℝ) = Real.sqrt x := by
  rw [show (0.5 : ℝ) = 1 / 2 by norm_num, ← Real.sqrt_eq_rpow]

lemma normalizePitch_eq_sqrt (db : ℝ) :
    normalizePitch db =
      max 0 (min 100
        (Real.sqrt ((max (-60) (min (-10) db) - (-60)) / ((-10) - (-60)) * 100 / 100) * 100)) := by
  simp only [normalizePitch, rpow_half_eq_sqrt]

lemma updatePitchData_eq_drop (l : List ℝ) (x : ℝ) :
    updatePitchData l x = (l ++ [x]).drop (l.length + 1 - MAX_DATA_POINTS) := by
  simp only [updatePitchData, List.length_append, List.length_cons, List.length_nil,
    Nat.zero_add]
  by_cases h : l.length + 1 > MAX_DATA_POINTS
  · simp [h]
  · have h0 : l.length + 1 - MAX_DATA_POINTS = 0 := by omega
    simp [h, h0]

lemma length_updatePitchData (l : List ℝ) (x : ℝ) :
    (updatePitchData l x).length = min (l.length + 1) MAX_DATA_POINTS := by
  rw [updatePitchData_eq_drop, List.length_drop, List.length_append]
  simp only [List.length_cons, List.length_nil]
  omega

lemma foldl_updatePitchData (vs : List ℝ) : ∀ acc : List ℝ, acc.length ≤ MAX_DATA_POINTS →
    vs.foldl updatePitchData acc = (acc ++ vs).drop (acc.length + vs.length - MAX_DATA_POINTS) := by
  induction vs with
  | nil =>
      intro acc hacc
      simp only [List.foldl_nil, List.append_nil, List.length_nil, Nat.add_zero]
      rw [Nat.sub_eq_zero_of_le hacc, List.drop_zero]
  | cons x vs ih =>
      intro acc hacc
      have hlen : (updatePitchData acc x).length ≤ MAX_DATA_POINTS := by
        rw [length_updatePitchData]; omega
      have hd : acc.length + 1 - MAX_DATA_POINTS ≤ (acc ++ [x]).length := by
        simp only [List.length_append, List.length_cons, List.length_nil]
        omega
      have harith : acc.length + 1 - MAX_DATA_POINTS +
          (min (acc.length + 1) MAX_DATA_POINTS + vs.length - MAX_DATA_POINTS) =
          acc.length + (x :: vs).length - MAX_DATA_POINTS := by
        simp only [List.length_cons]; omega
      rw [List.foldl_cons, ih _ hlen, length_updatePitchData, updatePitchData_eq_drop,
        ← List.drop_append_of_le_length hd, List.drop_drop, List.append_assoc,
        List.singleton_append, harith]

/-! ## Claim theorems -/

/-- C1: for every real decibel input `db`, `normalizePitch db` equals the
reference pipeline (clamp to [-60, -10], rescale linearly to [0, 100],
square-root curve, clamp to [0, 100]); in particular
`normalizePitch (-60) = 0` and `normalizePitch (-10) = 100` exactly, and
`normalizePitch (-35) = Real.sqrt (1/2) * 100`. -/
theorem normalizePitch_matches_reference_pipeline (db : ℝ) :
    normalizePitch db = normalizeSpecPipeline db ∧
    normalizePitch (-60) = 0 ∧
    normalizePitch (-10) = 100 ∧
    normalizePitch (-35) = Real.sqrt (1 / 2) * 100 := by
  refine ⟨rfl, ?_, ?_, ?_⟩
  · rw [normalizePitch_eq_sqrt]
    norm_num [min_def, max_def]
  · rw [normalizePitch_eq_sqrt]
    norm_num [min_def, max_def]
  · rw [normalizePitch_eq_sqrt]
    have h1 : max (-60 : ℝ) (min (-10) (-35)) = -35 := by norm_num [min_def, max_def]
    rw [h1]
    have e : ((-35 : ℝ) - (-60)) / ((-10) - (-60)) * 100 / 100 = 1 / 2 := by norm_num
    rw [e]
    have hle : Real.sqrt (1 / 2) * 100 ≤ 100 := by
      have h : Real.sqrt (1 / 2) ≤ 1 := Real.sqrt_le_one.mpr (by norm_num)
      nlinarith
    have hge : (0 : ℝ) ≤ Real.sqrt (1 / 2) * 100 := by positivity
    rw [min_eq_right hle, max_eq_right hge]

/-- C8: `normalizePitch` is monotonically non-decreasing on the dynamic
range: for all db₁, db₂ in [-60, -10] with db₁ ≤ db₂,
`normalizePitch db₁ ≤ normalizePitch db₂`. -/
theorem normalizePitch_monotone (db₁ db₂ : ℝ)
    (h₁ : -60 ≤ db₁) (h₂ : db₁ ≤ db₂) (h₃ : db₂ ≤ -10) :
    normalizePitch db₁ ≤ normalizePitch db₂ := by
  rw [normalizePitch_eq_sqrt, normalizePitch_eq_sqrt]
  have h50 : (0 : ℝ) < (-10 : ℝ) - (-60) := by norm_num
  have hc : max (-60 : ℝ) (min (-10) db₁) ≤ max (-60) (min (-10) db₂) :=
    max_le_max le_rfl (min_le_min le_rfl h₂)
  have hs1 := sub_le_sub_right hc (-60 : ℝ)
  have hs2 := (div_le_div_iff_of_pos_right h50).mpr hs1
  have hs3 := mul_le_mul_of_nonneg_right hs2 (by norm_num : (0 : ℝ) ≤ 100)
  have hs4 := (div_le_div_iff_of_pos_right (by norm_num : (0 : ℝ) < 100)).mpr hs3
  have hs5 := Real.sqrt_le_sqrt hs4
  have hs6 := mul_le_mul_of_nonneg_right hs5 (by norm_num : (0 : ℝ) ≤ 100)
  exact max_le_max le_rfl (min_le_min le_rfl hs6)

/-- Witness for C8 at the concrete in-range pair (-50, -20). -/
theorem normalizePitch_monotone_witness :
    normalizePitch (-50) ≤ normalizePitch (-20) :=
  normalizePitch_monotone (-50) (-20) (by norm_num) (by norm_num) (by norm_num)

/-- C10: for every non-negative integer `ms`, `formatTime ms` is
pad2(floor(floor(ms/1000)/60)) ++ ":" ++ pad2(floor(ms/1000) mod 60);
`formatTime` imposes no upper cap: `formatTime 60000 = "01:00"` and
`formatTime 3660000 = "61:00"`. -/
theorem formatTime_formula_and_uncapped (ms : ℕ) :
    formatTime ms = formatTimeSpec ms ∧
    formatTime 60000 = "01:00" ∧
    formatTime 3660000 = "61:00" :=
  ⟨rfl, by decide, by decide⟩

/-- C2: after appending the sequence `vs` to an initially empty window,
the window holds exactly the last min(|vs|, 600) appended values in
arrival order (it is `vs.drop (vs.length - 600)`); its length is
min(|vs|, 600), and after 601 appends its first element equals the value
of the 2nd append. -/
theorem window_holds_last_600 (vs : List ℝ) :
    vs.foldl updatePitchData [] = vs.drop (vs.length - MAX_DATA_POINTS) ∧
    (vs.foldl updatePitchData []).length = min vs.length MAX_DATA_POINTS ∧
    (vs.length = 601 → (vs.foldl updatePitchData []).head? = vs[1]?) := by
  have h := foldl_updatePitchData vs [] (by simp [MAX_DATA_POINTS])
  simp only [List.nil_append, List.length_nil, Nat.zero_add] at h
  refine ⟨h, ?_, ?_⟩
  · rw [h, List.length_drop]
    omega
  · intro h601
    rw [h, h601]
    have h1 : 601 - MAX_DATA_POINTS = 1 := by norm_num [MAX_DATA_POINTS]
    rw [h1, List.head?_eq_getElem?, List.getElem?_drop]

/-- Witness for C2 at a concrete 601-element sequence. -/
theorem window_holds_last_600_witness :
    (List.replicate 601 (3 : ℝ)).length = 601 ∧
    ((List.replicate 601 (3 : ℝ)).foldl updatePitchData []).head? =
      (List.replicate 601 (3 : ℝ))[1]? :=
  ⟨by rw [List.length_replicate], (window_holds_last_600 _).2.2 (by rw [List.length_replicate])⟩

lemma normalizePitch_bounds (m : ℝ) : 0 ≤ normalizePitch m ∧ normalizePitch m ≤ 100 := by
  unfold normalizePitch
  exact ⟨le_max_left 0 _, max_le (by norm_num) (min_le_left _ _)⟩

lemma mem_updatePitchData {v x : ℝ} {l : List ℝ} (h : v ∈ updatePitchData l x) :
    v ∈ l ∨ v = x := by
  rw [updatePitchData_eq_drop] at h
  have h2 : v ∈ l ++ [x] := List.mem_of_mem_drop h
  rcases List.mem_append.mp h2 with h3 | h3
  · exact Or.inl h3
  · simp only [List.mem_singleton] at h3
    exact Or.inr h3

lemma onRecordingStatusUpdate_preserves_range (st : RecordingStatus) (s : PitchState)
    (hs : ∀ v ∈ s.pitchData, 0 ≤ v ∧ v ≤ 100) :
    ∀ v ∈ (onRecordingStatusUpdate st s).pitchData, 0 ≤ v ∧ v ≤ 100 := by
  intro v hv
  cases hrec : st.isRecording with
  | false =>
      simp only [onRecordingStatusUpdate, hrec, Bool.false_eq_true, if_false] at hv
      exact hs v hv
  | true =>
      cases hmet : st.metering with
      | none =>
          simp only [onRecordingStatusUpdate, hrec, hmet, if_true] at hv
          exact hs v hv
      | some m =>
          simp only [onRecordingStatusUpdate, hrec, hmet, if_true] at hv
          rcases mem_updatePitchData hv with h | h
          · exact hs v h
          · rw [h]
            exact normalizePitch_bounds m

/-- C3: on a sampling tick, `onRecordingStatusUpdate` appends exactly one
normalized sample (the window becomes `updatePitchData` of the old window
at the normalized reading, its length growing by one up to the 600 cap)
when `isRecording` is true and the metering reading is numeric; if
`isRecording` is false, or the reading is missing/non-numeric, the tick is
ignored and the state — window included — is unchanged. -/
theorem tick_appends_iff_recording_and_numeric (st : RecordingStatus) (s : PitchState) :
    (∀ m, st.isRecording = true → st.metering = some m →
      onRecordingStatusUpdate st s =
        { pitch := some (normalizePitch m),
          pitchData := updatePitchData s.pitchData (normalizePitch m) } ∧
      (onRecordingStatusUpdate st s).pitchData.length =
        min (s.pitchData.length + 1) MAX_DATA_POINTS) ∧
    (st.isRecording = false → onRecordingStatusUpdate st s = s) ∧
    (st.metering = none → onRecordingStatusUpdate st s = s) := by
  refine ⟨?_, ?_, ?_⟩
  · intro m hrec hmet
    constructor
    · simp only [onRecordingStatusUpdate, hrec, hmet, if_true]
    · simp only [onRecordingStatusUpdate, hrec, hmet, if_true]
      exact length_updatePitchData _ _
  · intro hrec
    simp only [onRecordingStatusUpdate, hrec, Bool.false_eq_true, if_false]
  · intro hmet
    cases hrec : st.isRecording <;>
      simp only [onRecordingStatusUpdate, hrec, hmet, Bool.false_eq_true, if_false, if_true]

/-- Witness for C3 at concrete ticks: a recording numeric tick appends,
a non-recording tick and a missing-reading tick leave the state alone. -/
theorem tick_appends_iff_recording_and_numeric_witness :
    onRecordingStatusUpdate ⟨true, some (-35)⟩ ⟨none, []⟩ =
      { pitch := some (normalizePitch (-35)),
        pitchData := updatePitchData [] (normalizePitch (-35)) } ∧
    onRecordingStatusUpdate ⟨false, some (-35)⟩ ⟨none, [5]⟩ = ⟨none, [5]⟩ ∧
    onRecordingStatusUpdate ⟨true, none⟩ ⟨none, [5]⟩ = ⟨none, [5]⟩ :=
  ⟨((tick_appends_iff_recording_and_numeric ⟨true, some (-35)⟩ ⟨none, []⟩).1 (-35) rfl rfl).1,
   (tick_appends_iff_recording_and_numeric ⟨false, some (-35)⟩ ⟨none, [5]⟩).2.1 rfl,
   (tick_appends_iff_recording_and_numeric ⟨true, none⟩ ⟨none, [5]⟩).2.2 rfl⟩

/-- C7: every value the normalizer can produce lies in [0, 100], so after
any sequence of status ticks starting from a window whose values are all
in [0, 100], the window still contains only values in [0, 100]. -/
theorem window_values_in_range (ticks : List RecordingStatus) (s : PitchState)
    (hs : ∀ v ∈ s.pitchData, 0 ≤ v ∧ v ≤ 100) :
    (∀ m : ℝ, 0 ≤ normalizePitch m ∧ normalizePitch m ≤ 100) ∧
    ∀ v ∈ (processTicks ticks s).pitchData, 0 ≤ v ∧ v ≤ 100 := by
  refine ⟨normalizePitch_bounds, ?_⟩
  induction ticks generalizing s with
  | nil => exact hs
  | cons st ticks ih =>
      exact ih _ (onRecordingStatusUpdate_preserves_range st s hs)

/-- Witness for C7 starting from the empty window with one concrete tick. -/
theorem window_values_in_range_witness :
    (∀ m : ℝ, 0 ≤ normalizePitch m ∧ normalizePitch m ≤ 100) ∧
    ∀ v ∈ (processTicks [⟨true, some (-35)⟩] ⟨none, []⟩).pitchData, 0 ≤ v ∧ v ≤ 100 :=
  window_values_in_range [⟨true, some (-35)⟩] ⟨none, []⟩ (by simp)

lemma stopRecording_clears (s : AppState) (uf : Bool) :
    (stopRecording s uf).1.recording = none ∧
    (stopRecording s uf).1.isRecording = false ∧
    (stopRecording s uf).1.intervalRef = none ∧
    (stopRecording s uf).1.timerRef = none := by
  rcases s with ⟨rec, p, pd, ir, et, iv, tr⟩
  cases iv <;> cases tr <;> simp [stopRecording]

lemma stopRecording_noop (s : AppState) (uf : Bool) (h1 : s.recording = none)
    (h2 : s.intervalRef = none) (h3 : s.timerRef = none) (h4 : s.isRecording = false) :
    stopRecording s uf = (s, []) := by
  rcases s with ⟨rec, p, pd, ir, et, iv, tr⟩
  simp only at h1 h2 h3 h4
  subst h1 h2 h3 h4
  simp [stopRecording]

lemma stopRecording_elapsed (s : AppState) (uf : Bool) :
    (stopRecording s uf).1.elapsedTime = s.elapsedTime := by
  rcases s with ⟨rec, p, pd, ir, et, iv, tr⟩
  cases iv <;> cases tr <;> simp [stopRecording]

/-- C4: `stopRecording` is idempotent and total. A second call right
after a first one is a no-op: same state back and an empty effect list,
so no error and no double release of the capture handle. A call before
any start (on the initial state) is likewise a no-op. And even when
`stopAndUnloadAsync` fails, the failure is swallowed and the state still
transitions to Idle: handle cleared, `isRecording` false, timers
cleared. -/
theorem stopRecording_idempotent_total (s : AppState) (uf₁ uf₂ uf : Bool) :
    stopRecording (stopRecording s uf₁).1 uf₂ = ((stopRecording s uf₁).1, []) ∧
    stopRecording initialState uf = (initialState, []) ∧
    ((stopRecording s true).1.recording = none ∧
     (stopRecording s true).1.isRecording = false ∧
     (stopRecording s true).1.intervalRef = none ∧
     (stopRecording s true).1.timerRef = none) := by
  obtain ⟨a1, a2, a3, a4⟩ := stopRecording_clears s uf₁
  exact ⟨stopRecording_noop _ uf₂ a1 a3 a4 a2,
         stopRecording_noop initialState uf rfl rfl rfl rfl,
         stopRecording_clears s true⟩

lemma appOnStatus_fields (st : RecordingStatus) (s : AppState) :
    (appOnStatus st s).timerRef = s.timerRef ∧
    (appOnStatus st s).intervalRef = s.intervalRef ∧
    (appOnStatus st s).isRecording = s.isRecording ∧
    (appOnStatus st s).recording = s.recording ∧
    (appOnStatus st s).elapsedTime = s.elapsedTime := by
  simp [appOnStatus]

lemma fireAt_of_cleared (s : AppState) (h2 : s.intervalRef = none) (h3 : s.timerRef = none)
    (f : ℕ → RecordingStatus) (uf : Bool) (t : ℕ) : fireAt f uf s t = s := by
  simp [fireAt, samplingStep, deadlineStep, elapsedStep, h2, h3]

/-- C6: after `stopRecording` returns, all three scheduled activities —
the sampling interval, the deadline timeout and the elapsed-time
interval — are cancelled (the effect list clears all three ids) and the
stored timer handles are cleared; no timer ever fires again (`fireAt` on
the resulting state is the identity at every instant). The same holds
when the stop runs as the screen-teardown cleanup. -/
theorem stop_cancels_all_three_timers (s : AppState) (uf : Bool) :
    ((stopRecording s uf).1.intervalRef = none ∧ (stopRecording s uf).1.timerRef = none) ∧
    (∀ i tp, s.intervalRef = some i → s.timerRef = some tp →
      Effect.clearInterval i ∈ (stopRecording s uf).2 ∧
      Effect.clearTimeout tp.timeout ∈ (stopRecording s uf).2 ∧
      Effect.clearInterval tp.interval ∈ (stopRecording s uf).2) ∧
    (∀ f uf' t, fireAt f uf' (stopRecording s uf).1 t = (stopRecording s uf).1) ∧
    ((teardownCleanup s uf).1.intervalRef = none ∧ (teardownCleanup s uf).1.timerRef = none ∧
     ∀ f uf' t, fireAt f uf' (teardownCleanup s uf).1 t = (teardownCleanup s uf).1) := by
  obtain ⟨a1, a2, a3, a4⟩ := stopRecording_clears s uf
  refine ⟨⟨a3, a4⟩, ?_, fun f uf' t => fireAt_of_cleared _ a3 a4 f uf' t,
          a3, a4, fun f uf' t => fireAt_of_cleared _ a3 a4 f uf' t⟩
  intro i tp hi htp
  rcases s with ⟨rec, p, pd, ir, et, iv, tr⟩
  simp only at hi htp
  subst hi htp
  cases rec <;> simp [stopRecording]

/-- Witness for C6 at a concrete fully-armed state. -/
theorem stop_cancels_all_three_timers_witness :
    Effect.clearInterval 1 ∈ (stopRecording (startRecording initialState 7 1 2 3) false).2 ∧
    Effect.clearTimeout 2 ∈ (stopRecording (startRecording initialState 7 1 2 3) false).2 ∧
    Effect.clearInterval 3 ∈ (stopRecording (startRecording initialState 7 1 2 3) false).2 :=
  (stop_cancels_all_three_timers (startRecording initialState 7 1 2 3) false).2.1 1 ⟨2, 3⟩ rfl rfl

lemma samplingStep_fields (f : ℕ → RecordingStatus) (s : AppState) (t : ℕ) :
    (samplingStep f s t).timerRef = s.timerRef ∧
    (samplingStep f s t).intervalRef = s.intervalRef ∧
    (samplingStep f s t).isRecording = s.isRecording ∧
    (samplingStep f s t).elapsedTime = s.elapsedTime := by
  unfold samplingStep
  split_ifs <;> simp [appOnStatus]

lemma deadlineStep_skip (uf : Bool) (s : AppState) (t : ℕ) (ht : t ≠ RECORDING_TIME_LIMIT) :
    deadlineStep uf s t = s := by
  simp [deadlineStep, ht]

lemma deadlineStep_elapsed (uf : Bool) (s : AppState) (t : ℕ) :
    (deadlineStep uf s t).elapsedTime = s.elapsedTime := by
  unfold deadlineStep
  split_ifs <;> simp [stopRecording_elapsed]

lemma elapsedStep_fields (s : AppState) (t : ℕ) :
    (elapsedStep s t).timerRef = s.timerRef ∧
    (elapsedStep s t).intervalRef = s.intervalRef ∧
    (elapsedStep s t).isRecording = s.isRecording := by
  unfold elapsedStep
  split_ifs <;> simp

lemma elapsedStep_elapsed (s : AppState) (t : ℕ) :
    (elapsedStep s t).elapsedTime = t ∨ (elapsedStep s t).elapsedTime = s.elapsedTime := by
  unfold elapsedStep
  split_ifs <;> simp

lemma fireAt_no_deadline (f : ℕ → RecordingStatus) (uf : Bool) (s : AppState) (t : ℕ)
    (ht : t ≠ RECORDING_TIME_LIMIT) :
    (fireAt f uf s t).timerRef = s.timerRef ∧
    (fireAt f uf s t).intervalRef = s.intervalRef ∧
    (fireAt f uf s t).isRecording = s.isRecording := by
  unfold fireAt
  rw [deadlineStep_skip uf _ t ht]
  obtain ⟨e1, e2, e3⟩ := elapsedStep_fields (samplingStep f s t) t
  obtain ⟨g1, g2, g3, g4⟩ := samplingStep_fields f s t
  exact ⟨e1.trans g1, e2.trans g2, e3.trans g3⟩

lemma fireAt_elapsed (f : ℕ → RecordingStatus) (uf : Bool) (s : AppState) (t : ℕ) :
    (fireAt f uf s t).elapsedTime = t ∨ (fireAt f uf s t).elapsedTime = s.elapsedTime := by
  unfold fireAt
  rcases elapsedStep_elapsed (deadlineStep uf (samplingStep f s t) t) t with h | h
  · exact Or.inl h
  · right
    rw [h, deadlineStep_elapsed, (samplingStep_fields f s t).2.2.2]

lemma fireAt_deadline (f : ℕ → RecordingStatus) (uf : Bool) (s : AppState)
    (h : s.timerRef.isSome = true) :
    (fireAt f uf s RECORDING_TIME_LIMIT).isRecording = false ∧
    (fireAt f uf s RECORDING_TIME_LIMIT).timerRef = none ∧
    (fireAt f uf s RECORDING_TIME_LIMIT).intervalRef = none := by
  have h1 : (samplingStep f s RECORDING_TIME_LIMIT).timerRef = s.timerRef :=
    (samplingStep_fields f s RECORDING_TIME_LIMIT).1
  have hd : deadlineStep uf (samplingStep f s RECORDING_TIME_LIMIT) RECORDING_TIME_LIMIT =
      (stopRecording (samplingStep f s RECORDING_TIME_LIMIT) uf).1 := by
    unfold deadlineStep
    rw [if_pos ⟨by rw [h1]; exact h, rfl⟩]
  obtain ⟨a1, a2, a3, a4⟩ := stopRecording_clears (samplingStep f s RECORDING_TIME_LIMIT) uf
  have hc : ¬((stopRecording (samplingStep f s RECORDING_TIME_LIMIT) uf).1.timerRef.isSome = true ∧
      RECORDING_TIME_LIMIT % 1000 = 0) := by
    rw [a4]
    simp
  have he : elapsedStep (stopRecording (samplingStep f s RECORDING_TIME_LIMIT) uf).1
      RECORDING_TIME_LIMIT = (stopRecording (samplingStep f s RECORDING_TIME_LIMIT) uf).1 := by
    unfold elapsedStep
    rw [if_neg hc]
  unfold fireAt
  rw [hd, he]
  exact ⟨a2, a4, a3⟩

lemma runTo_pre_deadline (f : ℕ → RecordingStatus) (uf : Bool) (s0 : AppState) :
    ∀ t, t < RECORDING_TIME_LIMIT →
      (runTo f uf s0 t).timerRef = s0.timerRef ∧
      (runTo f uf s0 t).intervalRef = s0.intervalRef ∧
      (runTo f uf s0 t).isRecording = s0.isRecording := by
  intro t
  induction t with
  | zero => exact fun _ => ⟨rfl, rfl, rfl⟩
  | succ t ih =>
      intro h
      obtain ⟨e1, e2, e3⟩ := ih (Nat.lt_of_succ_lt h)
      obtain ⟨g1, g2, g3⟩ :=
        fireAt_no_deadline f uf (runTo f uf s0 t) (t + 1) (Nat.ne_of_lt h)
      exact ⟨g1.trans e1, g2.trans e2, g3.trans e3⟩

lemma runTo_frozen (f : ℕ → RecordingStatus) (uf : Bool) (s0 : AppState) (t : ℕ)
    (h2 : (runTo f uf s0 t).intervalRef = none) (h3 : (runTo f uf s0 t).timerRef = none) :
    ∀ u, t ≤ u → runTo f uf s0 u = runTo f uf s0 t := by
  intro u
  induction u with
  | zero =>
      intro hu
      rw [Nat.le_zero.mp hu]
  | succ u ih =>
      intro hu
      rcases Nat.eq_or_lt_of_le hu with he | hl
      · rw [← he]
      · have hr := ih (Nat.lt_succ_iff.mp hl)
        show fireAt f uf (runTo f uf s0 u) (u + 1) = runTo f uf s0 t
        rw [hr, fireAt_of_cleared _ h2 h3]

lemma runTo_elapsed_le (f : ℕ → RecordingStatus) (uf : Bool) (s0 : AppState)
    (h0 : s0.elapsedTime = 0) : ∀ t, (runTo f uf s0 t).elapsedTime ≤ t := by
  intro t
  induction t with
  | zero => exact h0.le
  | succ t ih =>
      rcases fireAt_elapsed f uf (runTo f uf s0 t) (t + 1) with h | h
      · exact (h : (runTo f uf s0 (t + 1)).elapsedTime = t + 1).le
      · exact le_trans (le_of_eq h) (le_trans ih (Nat.le_succ t))

/-- C5: `startRecording` arms a one-shot deadline that auto-invokes stop
at 60,000 ms after session start: in a run with no manual stop, the
session is out of the Recording state at every time ≥ 60,000 ms; the
elapsed time held by the state never exceeds 60,000 ms, and formatting
any such value caps the display at "01:00". -/
theorem deadline_auto_stop (s : AppState) (handle a b c : ℕ)
    (f : ℕ → RecordingStatus) (uf : Bool) :
    (∀ t, RECORDING_TIME_LIMIT ≤ t →
      (runTo f uf (startRecording s handle a b c) t).isRecording = false) ∧
    (∀ t, (runTo f uf (startRecording s handle a b c) t).elapsedTime ≤ RECORDING_TIME_LIMIT) ∧
    (∀ ms, ms ≤ RECORDING_TIME_LIMIT →
      formatTime ms = "01:00" ∨ ∃ r, formatTime ms = "00:" ++ r) := by
  have hpre := runTo_pre_deadline f uf (startRecording s handle a b c) 59999
    (by norm_num [RECORDING_TIME_LIMIT])
  have htr : (runTo f uf (startRecording s handle a b c) 59999).timerRef.isSome = true := by
    rw [hpre.1]; rfl
  have hrun : runTo f uf (startRecording s handle a b c) RECORDING_TIME_LIMIT =
      fireAt f uf (runTo f uf (startRecording s handle a b c) 59999) RECORDING_TIME_LIMIT := rfl
  obtain ⟨d1, d2, d3⟩ :=
    fireAt_deadline f uf (runTo f uf (startRecording s handle a b c) 59999) htr
  have hIc : (runTo f uf (startRecording s handle a b c) RECORDING_TIME_LIMIT).intervalRef =
      none := by rw [hrun]; exact d3
  have hTc : (runTo f uf (startRecording s handle a b c) RECORDING_TIME_LIMIT).timerRef =
      none := by rw [hrun]; exact d2
  have hfrozen := runTo_frozen f uf (startRecording s handle a b c) RECORDING_TIME_LIMIT hIc hTc
  refine ⟨?_, ?_, ?_⟩
  · intro t ht
    rw [hfrozen t ht, hrun]
    exact d1
  · intro t
    rcases le_or_lt t RECORDING_TIME_LIMIT with h | h
    · exact le_trans (runTo_elapsed_le f uf _ rfl t) h
    · rw [hfrozen t h.le]
      exact runTo_elapsed_le f uf _ rfl RECORDING_TIME_LIMIT
  · intro ms hms
    rcases Nat.eq_or_lt_of_le hms with he | hl
    · left
      rw [he]
      decide
    · right
      have hlt : ms < 60000 := hl
      have h1 : ms / 1000 < 60 := by
        rw [Nat.div_lt_iff_lt_mul (by norm_num : 0 < 1000)]
        omega
      have hm : ms / 1000 / 60 = 0 := Nat.div_eq_of_lt h1
      refine ⟨padStart (toString (ms / 1000 % 60)) 2 '0', ?_⟩
      show padStart (toString (ms / 1000 / 60)) 2 '0' ++ ":" ++
        padStart (toString (ms / 1000 % 60)) 2 '0' =
        "00:" ++ padStart (toString (ms / 1000 % 60)) 2 '0'
      rw [hm]
      rfl

/-- Witness for C5 with a concrete started session observed at the
60,000 ms deadline. -/
theorem deadline_auto_stop_witness :
    (runTo (fun _ => ⟨true, some (-35)⟩) false
      (startRecording initialState 1 2 3 4) 60000).isRecording = false ∧
    (runTo (fun _ => ⟨true, some (-35)⟩) false
      (startRecording initialState 1 2 3 4) 60000).elapsedTime ≤ RECORDING_TIME_LIMIT ∧
    (formatTime 60000 = "01:00" ∨ ∃ r, formatTime 60000 = "00:" ++ r) :=
  ⟨(deadline_auto_stop initialState 1 2 3 4 (fun _ => ⟨true, some (-35)⟩) false).1 60000
      (by norm_num [RECORDING_TIME_LIMIT]),
   (deadline_auto_stop initialState 1 2 3 4 (fun _ => ⟨true, some (-35)⟩) false).2.1 60000,
   (deadline_auto_stop initialState 1 2 3 4 (fun _ => ⟨true, some (-35)⟩) false).2.2 60000
      (by norm_num [RECORDING_TIME_LIMIT])⟩
